/-
Verification of the Polish-radio extractor family
(src/yt_dlp/extractor/polskieradio.py) against its specification.

Each definition in this file is a shallow embedding of a function or code
fragment of `polskieradio.py`; the source class and line numbers are given
in comments.  Helper functions of the surrounding framework (yt_dlp/utils,
yt_dlp/extractor/common, the Python standard library) are not vendored
under src/; where one of them matters to a claim it is modelled from the
specification and marked `Modelled from the spec:` in its doc comment.
-/

import Mathlib

set_option autoImplicit false

namespace PolskieRadio

universe u v

/-! ### Utility models

Small models of library helpers used by `polskieradio.py`. -/

/-- Python truthiness of an optional string (`media.get('file')` etc.):
`None` and the empty string are falsy. -/
def truthyOpt : Option String → Bool
  | none => false
  | some s => decide (s ≠ "")

/-- Modelled from the spec: `_proto_relative_url` (yt_dlp InfoExtractor, not
under src/) — "direct or protocol-relative stream location": a URL starting
with `//` gets a scheme prepended, any other URL is returned unchanged. -/
def protoRelativeUrl (url : String) : String :=
  match url.toList with
  | '/' :: '/' :: _ => "https:" ++ url
  | _ => url

/-- Value of a hexadecimal digit character, `none` for non-hex characters. -/
def hexVal (c : Char) : Option Nat :=
  if '0' ≤ c ∧ c ≤ '9' then some (c.toNat - 48)
  else if 'a' ≤ c ∧ c ≤ 'f' then some (c.toNat - 87)
  else if 'A' ≤ c ∧ c ≤ 'F' then some (c.toNat - 55)
  else none

/-- Percent-decoding of `compat_urllib_parse_unquote` (Python stdlib),
character-level model: `%xy` with two hex digits decodes to one character,
everything else is copied through. -/
def unquoteAux : Nat → List Char → List Char
  | 0, cs => cs
  | _ + 1, [] => []
  | fuel + 1, c :: rest =>
    if c = '%' then
      match rest with
      | a :: b :: rest2 =>
        match hexVal a, hexVal b with
        | some x, some y => Char.ofNat (16 * x + y) :: unquoteAux fuel rest2
        | _, _ => '%' :: unquoteAux fuel rest
      | _ => '%' :: unquoteAux fuel rest
    else c :: unquoteAux fuel rest

/-- `urllib.parse.unquote` on strings.  Every step of `unquoteAux` consumes
at least one character, so the length of the input is enough fuel. -/
def unquote (s : String) : String := String.mk (unquoteAux s.toList.length s.toList)

/-- Python `str.strip()`: remove leading and trailing whitespace. -/
def pyStrip (s : String) : String :=
  String.mk (((s.toList.dropWhile Char.isWhitespace).reverse.dropWhile
    Char.isWhitespace).reverse)

/-- Digits of a decimal number; `none` if empty or not all digits. -/
def digitsToNat (cs : List Char) : Option Nat :=
  if cs ≠ [] ∧ cs.all Char.isDigit then
    some (cs.foldl (fun a c => 10 * a + (c.toNat - 48)) 0)
  else none

/-- Days since 1970-01-01 of a civil date (standard civil-from-days
inverse). -/
def daysFromCivil (year : Int) (month day : Nat) : Int :=
  let y : Int := if month ≤ 2 then year - 1 else year
  let era : Int := (if 0 ≤ y then y else y - 399) / 400
  let yoe : Int := y - era * 400
  let mp : Int := (Int.ofNat month + 9) % 12
  let doy : Int := (153 * mp + 2) / 5 + Int.ofNat day - 1
  let doe : Int := yoe * 365 + yoe / 4 - yoe / 100 + doy
  era * 146097 + doe - 719468

/-- Modelled from the spec: `parse_iso8601` (yt_dlp utils, not under src/) —
"timestamp: optional integer (unix epoch, derived from ISO-8601)".  Parses
`YYYY-MM-DDTHH:MM:SS...` (time-zone suffix ignored) to a unix epoch. -/
def parseIso8601 (s : String) : Option Int := do
  let cs := s.toList
  let y ← digitsToNat (cs.take 4)
  guard (cs.get? 4 = some '-')
  let mo ← digitsToNat ((cs.drop 5).take 2)
  guard (cs.get? 7 = some '-')
  let d ← digitsToNat ((cs.drop 8).take 2)
  guard (cs.get? 10 = some 'T')
  let h ← digitsToNat ((cs.drop 11).take 2)
  guard (cs.get? 13 = some ':')
  let mi ← digitsToNat ((cs.drop 14).take 2)
  guard (cs.get? 16 = some ':')
  let sec ← digitsToNat ((cs.drop 17).take 2)
  pure (daysFromCivil (Int.ofNat y) mo d * 86400 + Int.ofNat (h * 3600 + mi * 60 + sec))

/-! ### URL pattern matchers

Embeddings of the `_VALID_URL` regular expressions, as `re.match`-style
prefix matchers over the character list of the URL.  Each regex here is
deterministic except for the optional host group `(?:[^/]+\.)?`, which is
handled by an explicit scan over the possible positions of the closing
dot (for a boolean matcher, existence of a match is all that matters). -/

/-- Consume a literal string, returning the rest of the input. -/
def dropLit : List Char → List Char → Option (List Char)
  | [], cs => some cs
  | _, [] => none
  | l :: ls, c :: cs => if c = l then dropLit ls cs else none

/-- Committed optional literal `(?:lit)?` (sound here because in every use
the literal's first character cannot begin the continuation). -/
def dropOpt (lit : List Char) (cs : List Char) : List Char :=
  match dropLit lit cs with
  | some rest => rest
  | none => cs

/-- `\d+`: consume one or more ASCII digits. -/
def digits1 : List Char → Option (List Char)
  | [] => none
  | c :: cs => if c.isDigit then some (cs.dropWhile Char.isDigit) else none

/-- `https?://` -/
def dropScheme (cs : List Char) : Option (List Char) := do
  let cs ← dropLit "http".toList cs
  let cs := dropOpt "s".toList cs
  dropLit "://".toList cs

/-- Tail of `PolskieRadioLegacyIE._VALID_URL` (line 56) after the host:
`\d+/\d+/[Aa]rtykul/(?P<id>\d+)` (prefix match, trailing input free). -/
def legacyTail (cs : List Char) : Bool :=
  (do
    let cs ← digits1 cs
    let cs ← dropLit "/".toList cs
    let cs ← digits1 cs
    let cs ← dropLit "/".toList cs
    let cs ← match cs with
      | 'A' :: rest => some rest
      | 'a' :: rest => some rest
      | _ => none
    let cs ← dropLit "rtykul/".toList cs
    let _ ← digits1 cs
    pure ()).isSome

/-- `PolskieRadioLegacyIE._VALID_URL` (line 56):
`https?://(?:www\.)?polskieradio(?:24)?\.pl/\d+/\d+/[Aa]rtykul/(?P<id>\d+)`. -/
def legacyMatches (url : String) : Bool :=
  (do
    let cs ← dropScheme url.toList
    let cs := dropOpt "www.".toList cs
    let cs ← dropLit "polskieradio".toList cs
    let cs := dropOpt "24".toList cs
    let cs ← dropLit ".pl/".toList cs
    guard (legacyTail cs)
    pure ()).isSome

/-- `/(?P<id>\d+)` -/
def slashDigits (cs : List Char) : Bool :=
  (do
    let cs ← dropLit "/".toList cs
    let _ ← digits1 cs
    pure ()).isSome

/-- Tail of `PolskieRadioCategoryIE._VALID_URL` (line 285) after the digits:
`(?:,[^/]+)?/(?P<id>\d+)`.  The group `,[^/]+` is followed by a literal `/`,
so the maximal run of non-`/` characters is the only possible split. -/
def categoryAfterDigits (cs : List Char) : Bool :=
  match cs with
  | ',' :: rest =>
    let run := rest.takeWhile (fun c => c ≠ '/')
    decide (run ≠ []) && slashDigits (rest.drop run.length)
  | _ => slashDigits cs

/-- `PolskieRadioCategoryIE._VALID_URL` (line 285):
`https?://(?:www\.)?polskieradio\.pl/\d+(?:,[^/]+)?/(?P<id>\d+)`. -/
def categoryMatches (url : String) : Bool :=
  (do
    let cs ← dropScheme url.toList
    let cs := dropOpt "www.".toList cs
    let cs ← dropLit "polskieradio.pl/".toList cs
    let cs ← digits1 cs
    guard (categoryAfterDigits cs)
    pure ()).isSome

/-- Optional host group `(?:[^/]+\.)?` followed by `tail`: after at least one
non-`/` character, each further position may close the group at a `.` (then
`tail` must match) or extend the `[^/]+` run. -/
def hostGroupTail (tail : List Char → Bool) : List Char → Bool
  | [] => false
  | c :: rest => decide (c ≠ '/') && ((decide (c = '.') && tail rest) || hostGroupTail tail rest)

/-- `(?:[^/]+\.)?tail`: the group is either absent or consists of one or
more non-`/` characters followed by a `.`. -/
def optHostGroup (tail : List Char → Bool) (cs : List Char) : Bool :=
  tail cs ||
    match cs with
    | [] => false
    | c :: rest => decide (c ≠ '/') && hostGroupTail tail rest

/-- Tail of `PolskieRadioIE._VALID_URL` (line 135):
`polskieradio(?:24)?\.pl/artykul/(?P<id>\d+)`. -/
def modernTail (cs : List Char) : Bool :=
  (do
    let cs ← dropLit "polskieradio".toList cs
    let cs := dropOpt "24".toList cs
    let cs ← dropLit ".pl/artykul/".toList cs
    let _ ← digits1 cs
    pure ()).isSome

/-- `PolskieRadioIE._VALID_URL` (line 135):
`https?://(?:[^/]+\.)?polskieradio(?:24)?\.pl/artykul/(?P<id>\d+)`.
This is `PolskieRadioIE.suitable`. -/
def polskieRadioMatches (url : String) : Bool :=
  (do
    let cs ← dropScheme url.toList
    guard (optHostGroup modernTail cs)
    pure ()).isSome

/-- Tail of `PolskieRadioAuditionIE._VALID_URL` (line 189):
`polskieradio\.pl/audycj[ae]/(?P<id>\d+)`. -/
def auditionTail (cs : List Char) : Bool :=
  (do
    let cs ← dropLit "polskieradio.pl/audycj".toList cs
    let cs ← match cs with
      | 'a' :: rest => some rest
      | 'e' :: rest => some rest
      | _ => none
    let cs ← dropLit "/".toList cs
    let _ ← digits1 cs
    pure ()).isSome

/-- `PolskieRadioAuditionIE._VALID_URL` (line 189):
`https?://(?:[^/]+\.)?polskieradio\.pl/audycj[ae]/(?P<id>\d+)`.
This is `PolskieRadioAuditionIE.suitable`. -/
def auditionMatches (url : String) : Bool :=
  (do
    let cs ← dropScheme url.toList
    guard (optHostGroup auditionTail cs)
    pure ()).isSome

/-- `PolskieRadioCategoryIE.suitable` (lines 308-310):
`False if PolskieRadioLegacyIE.suitable(url) else super().suitable(url)`. -/
def categorySuitable (url : String) : Bool :=
  if legacyMatches url then false else categoryMatches url

/-- The site handlers of the family that the claims mention. -/
inductive HandlerId where
  | legacy
  | modern
  | audition
  | category
  deriving DecidableEq, Repr

/-- Modelled from the spec: the Pattern Registry contract — "handlers are
tried in a fixed, deterministic registration order; first accepting handler
wins", restricted to the legacy/category pair (the registry itself is
framework code, not under src/). -/
def resolveLegacyOrCategory (url : String) : Option HandlerId :=
  if legacyMatches url then some HandlerId.legacy
  else if categorySuitable url then some HandlerId.category
  else none

/-! ### The media-entry dictionary

yt-dlp entries are Python dicts; this structure models the keys written by
the polskieradio handlers, an absent key being `none`. -/

/-- An info-dict entry.  `resultType` models the `_type` key, `ieKey` the
`ie_key` key. -/
structure Entry where
  resultType : Option String := none
  ieKey : Option HandlerId := none
  id : Option String := none
  url : Option String := none
  title : Option String := none
  description : Option String := none
  duration : Option Int := none
  timestamp : Option Int := none
  thumbnail : Option String := none
  vcodec : Option String := none
  deriving DecidableEq, Repr

/-! ### `PolskieRadioBaseExtractor._extract_webpage_player_entries` (lines 29-50)

The document is modelled as the list of parsed `data-media` JSON objects,
in document order (the output of `re.findall` + `_parse_json` on the raw
HTML, both framework/stdlib code). -/

/-- A parsed `data-media` JSON object.  `id` is a required key in every
object the code yields an entry for (`media['id']`, line 42); `file`,
`desc`, `length` and `provider` are read with `.get`. -/
structure MediaJson where
  id : Int
  file : Option String := none
  desc : Option String := none
  length : Option Int := none
  provider : Option String := none
  deriving DecidableEq, Repr

/-- Line 34: the block passes the filter iff `file` and `desc` are truthy. -/
def mediaValid (m : MediaJson) : Bool :=
  truthyOpt m.file && truthyOpt m.desc

/-- Line 36: `media_url = self._proto_relative_url(media['file'])`. -/
def mediaUrlOf (m : MediaJson) : String :=
  protoRelativeUrl (m.file.getD "")

/-- Lines 40-49: `entry = base_data.copy(); entry.update({...})` and the
conditional title overwrite from the unquoted `desc`. -/
def mkEntry (base : Entry) (m : MediaJson) : Entry :=
  let e : Entry :=
    { base with
      id := some (toString m.id)
      url := some (mediaUrlOf m)
      duration := m.length
      vcodec := if m.provider = some "audio" then some "none" else none }
  let entryTitle := unquote (m.desc.getD "")
  if entryTitle ≠ "" then { e with title := some entryTitle } else e

/-- Lines 30-50: the generator loop, with the `media_urls` set of already
seen normalized URLs carried as `seen`. -/
def extractLoop (base : Entry) : List String → List MediaJson → List Entry
  | _, [] => []
  | seen, m :: rest =>
    if mediaValid m then
      let u := mediaUrlOf m
      if u ∈ seen then extractLoop base seen rest
      else mkEntry base m :: extractLoop base (u :: seen) rest
    else extractLoop base seen rest

/-- `_extract_webpage_player_entries(webpage, playlist_id, base_data)`:
starts with an empty `media_urls` set. -/
def extractWebpagePlayerEntries (doc : List MediaJson) (base : Entry) : List Entry :=
  extractLoop base [] doc

/-! ### Mid-extraction redirects (lines 89-94 and 334-338)

`_real_extract` of the legacy and category handlers first fetches the page
(`_download_webpage_handle`), then decides on the *final resolved URL*
`urlh.url` whether to hand off to the modern/audition handler.  The fetch
is a parameter `(webpage, finalUrl)`; the extraction work done when no
redirect happens (lines 96-130 resp. 339-344) is abstracted as the
continuation `rest` applied to the fetched document. -/

/-- Outcome of a `_real_extract` call: either a `url_result` redirect to
another handler, or a completed extraction. -/
inductive ExtractOutcome (α : Type u) where
  | redirect (url : String) (target : HandlerId)
  | completed (value : α)
  deriving DecidableEq, Repr

/-- `PolskieRadioLegacyIE._real_extract` (lines 89-94): redirect to
`PolskieRadioIE` when the final URL of the fetched document suits it. -/
def legacyRealExtract {α : Type u} (fetch : String → String × String)
    (rest : String → α) (url : String) : ExtractOutcome α :=
  let r := fetch url
  if polskieRadioMatches r.2 then ExtractOutcome.redirect r.2 HandlerId.modern
  else ExtractOutcome.completed (rest r.1)

/-- `PolskieRadioCategoryIE._real_extract` (lines 334-338): redirect to
`PolskieRadioAuditionIE` when the final URL suits it. -/
def categoryRealExtract {α : Type u} (fetch : String → String × String)
    (rest : String → α) (url : String) : ExtractOutcome α :=
  let r := fetch url
  if auditionMatches r.2 then ExtractOutcome.redirect r.2 HandlerId.audition
  else ExtractOutcome.completed (rest r.1)

/-! ### `PolskieRadioIE._real_extract` attachment entries (lines 175-181)

The list comprehension over `article_data['attachments']`; a required-key
access on a missing key is a Python `KeyError`, and `_search_regex` with
its default `fatal=True` raises when the pattern is not found, so the
embedding returns `Except`. -/

/-- An element of `articleData.attachments`; every key is read, directly or
with `.get`, by lines 175-181. -/
structure Attachment where
  file : Option String := none
  fileName : Option String := none
  fileType : Option String := none
  description : Option String := none
  deriving DecidableEq, Repr

/-- An entry built by lines 175-181.  The `ext` key
(`determine_ext(entry.get('fileName'))`, a yt_dlp utils helper not under
src/) is not modelled; no claim concerns it. -/
structure ModernEntry where
  url : String
  id : String
  title : String
  deriving DecidableEq, Repr

/-- The UUID regex `([a-f\d]{8}-(?:[a-f\d]{4}-){3}[a-f\d]{12})` of line 179:
lowercase hex digit. -/
def isHexLower (c : Char) : Bool :=
  c.isDigit || (decide ('a' ≤ c) && decide (c ≤ 'f'))

/-- Consume exactly `n` lowercase-hex characters. -/
def dropHexRun : Nat → List Char → Option (List Char)
  | 0, cs => some cs
  | _ + 1, [] => none
  | n + 1, c :: cs => if isHexLower c then dropHexRun n cs else none

/-- Match the UUID pattern at the head of the input, returning the 36
matched characters. -/
def uuidAt (cs : List Char) : Option String := do
  let r1 ← dropHexRun 8 cs
  let r2 ← dropLit "-".toList r1
  let r3 ← dropHexRun 4 r2
  let r4 ← dropLit "-".toList r3
  let r5 ← dropHexRun 4 r4
  let r6 ← dropLit "-".toList r5
  let r7 ← dropHexRun 4 r6
  let r8 ← dropLit "-".toList r7
  let r9 ← dropHexRun 12 r8
  pure (String.mk (cs.take (cs.length - r9.length)))

/-- `re.search` for the UUID pattern: leftmost match. -/
def findUuid : List Char → Option String
  | [] => none
  | c :: rest =>
    match uuidAt (c :: rest) with
    | some s => some s
    | none => findUuid rest

/-- Line 180: `strip_or_none(entry.get('description')) or title`
(`strip_or_none` returns `None` for a non-string and the stripped string
otherwise; a strip to `""` is falsy, so `title` wins). -/
def modernEntryTitle (title : String) (description : Option String) : String :=
  match description with
  | none => title
  | some d => let s := pyStrip d; if s = "" then title else s

/-- Lines 175-181: the comprehension over the attachments.  Python
evaluates the `if` clause first (`entry['fileType']`, `KeyError` when
missing), then the element dict (`entry['file']`, then the fatal
`_search_regex` for the entry id). -/
def polskieRadioEntries (title : String) : List Attachment → Except String (List ModernEntry)
  | [] => Except.ok []
  | a :: rest =>
    match a.fileType with
    | none => Except.error "KeyError: fileType"
    | some ft =>
      if ft = "Audio" then
        match a.file with
        | none => Except.error "KeyError: file"
        | some f =>
          match findUuid f.toList with
          | none => Except.error "RegexNotFoundError: unable to extract entry id"
          | some uid =>
            match polskieRadioEntries title rest with
            | Except.error e => Except.error e
            | Except.ok tail =>
              Except.ok ({ url := f, id := uid, title := modernEntryTitle title a.description } :: tail)
      else polskieRadioEntries title rest

/-! ### `PolskieRadioAuditionIE._entries` (lines 224-263)

Each of the two loops `for i in itertools.count(1): page = fetch(i);
if not traverse_obj(page, 'data'): break; yield from page['data']` is an
instance of the open-ended paginator below.  The API response is modelled
by its `data` key (`none` when the key is missing or null); the loop stops
when `data` is falsy, i.e. absent or the empty list.  The loop itself is
unbounded in the source; the embedding carries a fuel bound, and the
theorems hold for every sufficiently large fuel. -/

/-- A page returned by `_call_lp3`, reduced to its `data` key. -/
structure LP3Page (α : Type u) where
  data : Option (List α)
  deriving DecidableEq, Repr

/-- `not traverse_obj(page, 'data')`: the `data` key is missing, null, or
an empty list. -/
def pageEmpty {α : Type u} (p : LP3Page α) : Bool :=
  match p.data with
  | none => true
  | some items => items.isEmpty

/-- The open-ended pagination loop: fetch page `i`, stop if its item
collection is falsy, otherwise yield its items and continue with `i + 1`. -/
def paginateLoop {α : Type u} (fetch : Nat → LP3Page α) : Nat → Nat → List α
  | 0, _ => []
  | fuel + 1, i =>
    match (fetch i).data with
    | none => []
    | some items =>
      if items.isEmpty then [] else items ++ paginateLoop fetch fuel (i + 1)

/-- Number of calls to `fetch` the pagination loop performs. -/
def paginateFetches {α : Type u} (fetch : Nat → LP3Page α) : Nat → Nat → Nat
  | 0, _ => 0
  | fuel + 1, i =>
    match (fetch i).data with
    | none => 1
    | some items =>
      if items.isEmpty then 1 else 1 + paginateFetches fetch fuel (i + 1)

/-- The items of pages `i, i+1, ..., i+N-1`, in page order. -/
def flatPages {α : Type u} (p : Nat → List α) (i : Nat) : Nat → List α
  | 0 => []
  | n + 1 => p i ++ flatPages p (i + 1) n

/-- An element of an episode page (`AudioArticle/GetListByCategoryId`):
`id` and `file` are required accesses (lines 237-238), the rest `.get`. -/
structure Episode where
  id : Int
  file : String
  title : Option String := none
  duration : Option Int := none
  datePublic : Option String := none
  deriving DecidableEq, Repr

/-- An element of an article page (`Article/GetListByCategoryId`): `id` and
`url` are required accesses (lines 258-259), the rest `.get` /
`traverse_obj`. -/
structure Article where
  id : Int
  url : String
  shortTitle : Option String := none
  descriptionLead : Option String := none
  datePublic : Option String := none
  deriving DecidableEq, Repr

/-- Lines 236-242: the concrete episode entry. -/
def episodeEntry (ep : Episode) : Entry :=
  { id := some (toString ep.id)
    url := some ep.file
    title := ep.title
    duration := ep.duration
    timestamp := ep.datePublic.bind parseIso8601 }

/-- Lines 255-263: the `url_transparent` article entry deferred to
`PolskieRadioIE`. -/
def articleEntry (a : Article) : Entry :=
  { resultType := some "url_transparent"
    ieKey := some HandlerId.modern
    id := some (toString a.id)
    url := some a.url
    title := a.shortTitle
    description := a.descriptionLead
    timestamp := a.datePublic.bind parseIso8601 }

/-- `_entries(playlist_id, has_episodes, has_articles)` (lines 224-263):
the episode loop runs only when `has_episodes` (`itertools.count(1) if
has_episodes else []`), then the article loop only when `has_articles`;
the two sub-streams are concatenated in that order. -/
def auditionEntries (fetchEpisodes : Nat → LP3Page Episode)
    (fetchArticles : Nat → LP3Page Article) (hasEpisodes hasArticles : Bool)
    (fuel : Nat) : List Entry :=
  (if hasEpisodes then (paginateLoop fetchEpisodes fuel 1).map episodeEntry else [])
    ++ (if hasArticles then (paginateLoop fetchArticles fuel 1).map articleEntry else [])

/-- Number of episode-list API calls `_entries` makes. -/
def auditionEpisodeCalls (fetchEpisodes : Nat → LP3Page Episode)
    (hasEpisodes : Bool) (fuel : Nat) : Nat :=
  if hasEpisodes then paginateFetches fetchEpisodes fuel 1 else 0

/-- Number of article-list API calls `_entries` makes. -/
def auditionArticleCalls (fetchArticles : Nat → LP3Page Article)
    (hasArticles : Bool) (fuel : Nat) : Nat :=
  if hasArticles then paginateFetches fetchArticles fuel 1 else 0

/-! ### `PolskieRadioPlayerIE._real_extract` (lines 376-418)

The channel list (parsed out of the player JS bundle) and the station list
(the stations API response) are the two fetched documents; both are inputs
of the embedding. -/

/-- An element of the channel list; all keys are read with `.get` except
`channel['id']` (line 412), which is required on the success path. -/
structure Channel where
  id : Int
  url : Option String := none
  name : Option String := none
  streamName : Option String := none
  deriving DecidableEq, Repr

/-- An element of the station list; `Name` is read with `.get` (line 393),
`Streams` is a required access (line 398).  `sName` models the `Name` key. -/
structure Station where
  sName : Option String := none
  streams : List String := []
  deriving DecidableEq, Repr

/-- Lines 397-409: classification of one stream URL after proto-relative
normalization; the `_extract_*_formats` helpers (framework code) are kept
as constructors. -/
inductive StreamFormat where
  | m3u8 (url : String)
  | mpd (url : String)
  | ism (url : String)
  | direct (url : String)
  deriving DecidableEq, Repr

/-- One iteration of the `for stream_url in station['Streams']` loop. -/
def classifyStream (streamUrl : String) : StreamFormat :=
  let u := protoRelativeUrl streamUrl
  if u.endsWith "/playlist.m3u8" then StreamFormat.m3u8 u
  else if u.endsWith "/manifest.f4m" then StreamFormat.mpd u
  else if u.endsWith "/Manifest" then StreamFormat.ism u
  else StreamFormat.direct u

/-- Line 393: `channel.get('streamName') or channel.get('name')`. -/
def channelStreamKey (c : Channel) : Option String :=
  if truthyOpt c.streamName then c.streamName else c.name

/-- The result dict of lines 411-418. -/
structure PlayerResult where
  id : String
  formats : List StreamFormat
  title : Option String
  displayId : String
  thumbnail : String
  isLive : Bool
  deriving DecidableEq, Repr

/-- Lines 376-418: channel lookup by `url` key, then station lookup by
`Name` key against the channel's streamName-or-name, each raising
`ExtractorError` when empty; otherwise the result dict is built. -/
def playerRealExtract (channelList : List Channel) (stationList : List Station)
    (channelUrl : String) : Except String PlayerResult :=
  match channelList.find? (fun c => decide (c.url = some channelUrl)) with
  | none => Except.error "Channel not found"
  | some channel =>
    match stationList.find? (fun s => decide (s.sName = channelStreamKey channel)) with
    | none => Except.error "Station not found even though we extracted channel"
    | some station =>
      Except.ok
        { id := toString channel.id
          formats := station.streams.map classifyStream
          title := if truthyOpt channel.name then channel.name else channel.streamName
          displayId := channelUrl
          thumbnail := "https://player.polskieradio.pl/images/" ++ channelUrl ++ "-color-logo.png"
          isLive := true }

/-! ### The podcast extractors (lines 421-477) -/

/-- The JSON object of one podcast episode: `guid`, `url` and `title` are
required accesses of `_parse_episode` (lines 424-438), the rest `.get`. -/
structure PodcastEpisodeData where
  guid : String
  url : String
  title : String
  fileSize : Option Int := none
  description : Option String := none
  length : Option Int := none
  publishDate : Option String := none
  image : Option String := none
  podcastTitle : Option String := none
  deriving DecidableEq, Repr

/-- An element of the `formats` list of a parsed episode (lines 427-430). -/
structure PodcastFormat where
  url : String
  filesize : Option Int := none
  deriving DecidableEq, Repr

/-- The dict returned by `_parse_episode`. -/
structure PodcastEntry where
  id : String
  formats : List PodcastFormat
  title : String
  description : Option String
  duration : Option Int
  timestamp : Option Int
  thumbnail : Option String
  series : Option String
  episode : String
  deriving DecidableEq, Repr

/-- Modelled from the spec: `url_or_none` (yt_dlp utils, not under src/) —
"thumbnail: optional URL string": keep the value only when it looks like a
URL (has a scheme or is protocol-relative). -/
def urlOrNone (s : Option String) : Option String :=
  s.bind fun u =>
    if u.startsWith "http://" || u.startsWith "https://" || u.startsWith "//"
    then some u else none

/-- `PolskieRadioPodcastBaseExtractor._parse_episode` (lines 424-438). -/
def parseEpisode (data : PodcastEpisodeData) : PodcastEntry :=
  { id := data.guid
    formats := [{ url := data.url, filesize := data.fileSize }]
    title := data.title
    description := data.description
    duration := data.length
    timestamp := data.publishDate.bind parseIso8601
    thumbnail := urlOrNone data.image
    series := data.podcastTitle
    episode := data.title }

/-- The first API response of `PolskieRadioPodcastListIE._real_extract`
(line 463), reduced to the keys the code reads. -/
structure PodcastApiPage where
  items : List PodcastEpisodeData
  itemCount : Nat
  deriving DecidableEq, Repr

/-- `_PAGE_SIZE = 10` (line 454). -/
def podcastPageSize : Nat := 10

/-- Line 472: `math.ceil(data['itemCount'] / self._PAGE_SIZE)` on naturals. -/
def podcastPageCount (itemCount : Nat) : Nat :=
  (itemCount + podcastPageSize - 1) / podcastPageSize

/-- Lines 465-467: `get_page(page_num)` re-fetches page `page_num + 1`
for `page_num != 0` and serves page 0 from the already-fetched first
response `data`. -/
def podcastGetPage (callApi : Nat → PodcastApiPage) (data : PodcastApiPage)
    (pageNum : Nat) : List PodcastEntry :=
  let pageData := if pageNum ≠ 0 then callApi (pageNum + 1) else data
  pageData.items.map parseEpisode

/-- Modelled from the spec: `InAdvancePagedList` (yt_dlp utils, not under
src/) — "when a total-item-count is declared upfront, stop once
`ceil(total / page_size)` pages have been emitted": the entry sequence is
the concatenation of `get_page` over the page indices `0, ...,
pageCount - 1`. -/
def inAdvancePagedList {α : Type u} (getPage : Nat → List α) (pageCount : Nat) : List α :=
  ((List.range pageCount).map getPage).flatten

/-- Lines 469-477: the entries of the playlist result of
`PolskieRadioPodcastListIE._real_extract`. -/
def podcastListEntries (callApi : Nat → PodcastApiPage) (data : PodcastApiPage) :
    List PodcastEntry :=
  inAdvancePagedList (podcastGetPage callApi data) (podcastPageCount data.itemCount)

/-! ### Seed-field overlay of deferred references

The merge of `url_transparent` seed fields into the resolved record is
performed by the yt-dlp core (`YoutubeDL.process_ie_result`), which is not
under src/; it is modelled from the spec. -/

/-- Modelled from the spec: overlay of one string-valued seed field — "the
seed value survives into the final record exactly when the deeper
resolution leaves that field unset or empty". -/
def overlayStrField (resolved seed : Option String) : Option String :=
  match resolved with
  | none => seed
  | some v => if v = "" then seed else some v

/-- Modelled from the spec: overlay of one non-string seed field — seed
survives exactly when the resolved record leaves the field unset. -/
def overlayOptField {α : Type u} (resolved seed : Option α) : Option α :=
  match resolved with
  | none => seed
  | some v => some v

/-- Modelled from the spec: "overlays `seed_fields` onto each produced
record wherever the produced record leaves that field unset (seed never
overwrites a concretely-resolved value)". -/
def overlaySeed (seed resolved : Entry) : Entry :=
  { resultType := resolved.resultType
    ieKey := resolved.ieKey
    id := overlayStrField resolved.id seed.id
    url := overlayStrField resolved.url seed.url
    title := overlayStrField resolved.title seed.title
    description := overlayStrField resolved.description seed.description
    duration := overlayOptField resolved.duration seed.duration
    timestamp := overlayOptField resolved.timestamp seed.timestamp
    thumbnail := overlayStrField resolved.thumbnail seed.thumbnail
    vcodec := overlayStrField resolved.vcodec seed.vcodec }

/-! ### Concrete inputs used by the witness theorems -/

/-- A fake episode-list fetcher: two full pages of two items, then an empty
page. -/
def wFetchNat : Nat → LP3Page Nat :=
  fun i => if i ≤ 2 then ⟨some [10 * i, 10 * i + 1]⟩ else ⟨some []⟩

/-- The item lists of the pages of `wFetchNat`. -/
def wPagesNat : Nat → List Nat := fun i => [10 * i, 10 * i + 1]

/-- A concrete audition episode. -/
def wEpisode : Episode := { id := 7, file := "https://static.prsa.pl/media/7.mp3" }

/-- A concrete audition article. -/
def wArticle : Article := { id := 9, url := "https://jedynka.polskieradio.pl/artykul/9" }

/-- A fake episode fetcher: one page, then an empty page. -/
def wFetchEpisodes : Nat → LP3Page Episode :=
  fun i => if i = 1 then ⟨some [wEpisode]⟩ else ⟨some []⟩

/-- A fake article fetcher: one page, then a page with a missing `data`. -/
def wFetchArticles : Nat → LP3Page Article :=
  fun i => if i = 1 then ⟨some [wArticle]⟩ else ⟨none⟩

/-- A concrete podcast episode. -/
def wPodcastEpisode : PodcastEpisodeData :=
  { guid := "6eafe403-cb8f-4756-b896-4455c3713c32"
    url := "https://static.prsa.pl/sound.mp3"
    title := "Raport" }

/-- A concrete first podcast API response: 15 items declared in total. -/
def wPodcastData : PodcastApiPage := { items := [wPodcastEpisode], itemCount := 15 }

/-- A fake podcast API. -/
def wPodcastApi : Nat → PodcastApiPage :=
  fun _ => { items := [wPodcastEpisode], itemCount := 15 }

/-- A fake fetch whose final resolved URL differs from the input URL and
lands on the modern next.js site. -/
def wFetchRedirect : String → String × String :=
  fun _ => ("<html></html>", "https://jedynka.polskieradio.pl/artykul/2534482")

/-- A fake fetch whose final resolved URL lands on an audition page. -/
def wFetchAudition : String → String × String :=
  fun _ => ("<html></html>", "https://jedynka.polskieradio.pl/audycje/5102")

/-- A concrete valid `data-media` block. -/
def wMedia : MediaJson :=
  { id := 2516679, file := some "//static.prsa.pl/sound.mp3", desc := some "Zagarysci" }

/-- A concrete `data-media` block with an empty `file` (falsy). -/
def wMediaBad : MediaJson := { id := 1, file := some "", desc := some "x" }

/-- A concrete Audio attachment. -/
def wAttachment : Attachment :=
  { file := some "https://x.pl/7a85d429-5356-4def-a347-925e4ae7406b.mp3"
    fileType := some "Audio" }

/-- A concrete non-Audio attachment. -/
def wAttachmentVideo : Attachment := { file := some "https://x.pl/v.mp4", fileType := some "Video" }

/-- A concrete channel. -/
def wChannel : Channel := { id := 3, url := some "trojka", name := some "Trójka" }

/-- A concrete station matching `wChannel`. -/
def wStation : Station :=
  { sName := some "Trójka", streams := ["//mp3.polskieradio.pl/playlist.m3u8"] }

/-- A concrete seed entry (playlist-level base data). -/
def wSeed : Entry :=
  { title := some "A", timestamp := some 1592654400
    thumbnail := some "https://static.prsa.pl/images/t.jpg" }

/-- A concrete resolved entry whose own title is unset. -/
def wResolvedNoTitle : Entry := { id := some "1", url := some "https://u" }

/-- A concrete resolved entry whose own title is `"B"`. -/
def wResolvedB : Entry := { id := some "1", url := some "https://u", title := some "B" }

/-! ## Lemmas and theorems -/

/-- Core behaviour of the open-ended paginator: with `N` non-empty pages
starting at index `i` and an empty page at `i + N`, and enough fuel, the
loop returns exactly the items of pages `i .. i+N-1` in order and performs
exactly `N + 1` fetches. -/
theorem paginateLoop_spec {α : Type u} (fetch : Nat → LP3Page α) (p : Nat → List α) :
    ∀ (N i fuel : Nat),
      (∀ j, i ≤ j → j < i + N → (fetch j).data = some (p j) ∧ p j ≠ []) →
      pageEmpty (fetch (i + N)) = true → N + 1 ≤ fuel →
      paginateLoop fetch fuel i = flatPages p i N ∧
        paginateFetches fetch fuel i = N + 1 := by
  intro N
  induction N with
  | zero =>
    intro i fuel _ hempty hfuel
    obtain ⟨f, rfl⟩ : ∃ f, fuel = f + 1 := ⟨fuel - 1, by omega⟩
    simp only [Nat.add_zero] at hempty
    unfold pageEmpty at hempty
    cases hdata : (fetch i).data with
    | none => simp [paginateLoop, paginateFetches, hdata, flatPages]
    | some items =>
      rw [hdata] at hempty
      have hnil : items = [] := by
        cases items with
        | nil => rfl
        | cons a l => simp at hempty
      subst hnil
      simp [paginateLoop, paginateFetches, hdata, flatPages]
  | succ N ih =>
    intro i fuel hfull hempty hfuel
    obtain ⟨f, rfl⟩ : ∃ f, fuel = f + 1 := ⟨fuel - 1, by omega⟩
    obtain ⟨hdata, hne⟩ := hfull i (Nat.le_refl i) (by omega)
    have hni : (p i).isEmpty = false := by
      cases h : p i with
      | nil => exact absurd h hne
      | cons a l => rfl
    have harg : ∀ j, i + 1 ≤ j → j < i + 1 + N → (fetch j).data = some (p j) ∧ p j ≠ [] :=
      fun j h1 h2 => hfull j (by omega) (by omega)
    have hempty' : pageEmpty (fetch (i + 1 + N)) = true := by
      have h : i + 1 + N = i + (N + 1) := by omega
      rw [h]; exact hempty
    have hih := ih (i + 1) f harg hempty' (by omega)
    constructor
    · show paginateLoop fetch (f + 1) i = flatPages p i (N + 1)
      simp only [paginateLoop, hdata, hni, Bool.false_eq_true, if_false, flatPages]
      rw [hih.1]
    · show paginateFetches fetch (f + 1) i = N + 1 + 1
      simp only [paginateFetches, hdata, hni, Bool.false_eq_true, if_false]
      rw [hih.2]
      omega

/-- Length of the flattened pages when every page has `psize` items. -/
theorem flatPages_length {α : Type u} (p : Nat → List α) (psize : Nat) :
    ∀ (N i : Nat), (∀ j, i ≤ j → j < i + N → (p j).length = psize) →
      (flatPages p i N).length = N * psize := by
  intro N
  induction N with
  | zero => intro i _; simp [flatPages]
  | succ N ih =>
    intro i h
    simp only [flatPages, List.length_append]
    rw [h i (Nat.le_refl i) (by omega),
      ih (i + 1) (fun j h1 h2 => h j (by omega) (by omega))]
    ring

/-- C1: the audition paginator starts at page index 1 and increments by 1
per fetch; it stops at the first page with an empty item collection, so a
fake fetcher with `N` pages of `psize` items followed by an empty page
yields exactly `N * psize` items with exactly `N + 1` fetches, for every
fuel bound of at least `N + 1` (normal termination). -/
theorem audition_pagination_open_ended {α : Type u} (fetch : Nat → LP3Page α)
    (p : Nat → List α) (N psize fuel : Nat)
    (hfull : ∀ j, 1 ≤ j → j ≤ N → (fetch j).data = some (p j) ∧ (p j).length = psize)
    (hpos : 0 < psize)
    (hempty : pageEmpty (fetch (N + 1)) = true)
    (hfuel : N + 1 ≤ fuel) :
    paginateLoop fetch fuel 1 = flatPages p 1 N ∧
      (paginateLoop fetch fuel 1).length = N * psize ∧
      paginateFetches fetch fuel 1 = N + 1 := by
  have hcore := paginateLoop_spec fetch p N 1 fuel
    (fun j h1 h2 => ⟨(hfull j h1 (by omega)).1, by
      have hlen := (hfull j h1 (by omega)).2
      intro hnil
      rw [hnil] at hlen
      simp only [List.length_nil] at hlen
      omega⟩)
    (by have h : 1 + N = N + 1 := by omega
        rw [h]; exact hempty) hfuel
  refine ⟨hcore.1, ?_, hcore.2⟩
  rw [hcore.1]
  exact flatPages_length p psize N 1 (fun j h1 h2 => (hfull j h1 (by omega)).2)

theorem audition_pagination_open_ended_witness :
    paginateLoop wFetchNat 3 1 = flatPages wPagesNat 1 2
      ∧ (paginateLoop wFetchNat 3 1).length = 2 * 2
      ∧ paginateFetches wFetchNat 3 1 = 2 + 1 :=
  audition_pagination_open_ended wFetchNat wPagesNat 2 2 3
    (by intro j h1 h2; interval_cases j <;> decide)
    (by decide) (by decide) (by decide)

/-- C10: `_entries` concatenates the episode sub-stream before the article
sub-stream (no interleaving), each in ascending page order with in-page
order preserved; a sub-stream is consulted only when its flag is set, with
zero API calls otherwise. -/
theorem audition_entries_merge_order (fetchEpisodes : Nat → LP3Page Episode)
    (fetchArticles : Nat → LP3Page Article) (pE : Nat → List Episode)
    (pA : Nat → List Article) (NE NA fuel : Nat)
    (hE : ∀ j, 1 ≤ j → j ≤ NE → (fetchEpisodes j).data = some (pE j) ∧ pE j ≠ [])
    (hEempty : pageEmpty (fetchEpisodes (NE + 1)) = true)
    (hA : ∀ j, 1 ≤ j → j ≤ NA → (fetchArticles j).data = some (pA j) ∧ pA j ≠ [])
    (hAempty : pageEmpty (fetchArticles (NA + 1)) = true)
    (hfuelE : NE + 1 ≤ fuel) (hfuelA : NA + 1 ≤ fuel) :
    auditionEntries fetchEpisodes fetchArticles true true fuel
        = (flatPages pE 1 NE).map episodeEntry ++ (flatPages pA 1 NA).map articleEntry
      ∧ auditionEntries fetchEpisodes fetchArticles false true fuel
        = (flatPages pA 1 NA).map articleEntry
      ∧ auditionEntries fetchEpisodes fetchArticles true false fuel
        = (flatPages pE 1 NE).map episodeEntry
      ∧ auditionEpisodeCalls fetchEpisodes false fuel = 0
      ∧ auditionArticleCalls fetchArticles false fuel = 0
      ∧ auditionEpisodeCalls fetchEpisodes true fuel = NE + 1
      ∧ auditionArticleCalls fetchArticles true fuel = NA + 1 := by
  have hce := paginateLoop_spec fetchEpisodes pE NE 1 fuel
    (fun j h1 h2 => hE j h1 (by omega))
    (by have h : 1 + NE = NE + 1 := by omega
        rw [h]; exact hEempty) hfuelE
  have hca := paginateLoop_spec fetchArticles pA NA 1 fuel
    (fun j h1 h2 => hA j h1 (by omega))
    (by have h : 1 + NA = NA + 1 := by omega
        rw [h]; exact hAempty) hfuelA
  refine ⟨?_, ?_, ?_, rfl, rfl, ?_, ?_⟩
  · simp [auditionEntries, hce.1, hca.1]
  · simp [auditionEntries, hca.1]
  · simp [auditionEntries, hce.1]
  · simp [auditionEpisodeCalls, hce.2]
  · simp [auditionArticleCalls, hca.2]

theorem audition_entries_merge_order_witness :
    auditionEntries wFetchEpisodes wFetchArticles true true 2
        = (flatPages (fun _ => [wEpisode]) 1 1).map episodeEntry
          ++ (flatPages (fun _ => [wArticle]) 1 1).map articleEntry
      ∧ auditionEntries wFetchEpisodes wFetchArticles false true 2
        = (flatPages (fun _ => [wArticle]) 1 1).map articleEntry
      ∧ auditionEpisodeCalls wFetchEpisodes false 2 = 0 := by
  have h := audition_entries_merge_order wFetchEpisodes wFetchArticles
    (fun _ => [wEpisode]) (fun _ => [wArticle]) 1 1 2
    (by intro j h1 h2; interval_cases j; decide)
    (by decide)
    (by intro j h1 h2; interval_cases j; decide)
    (by decide) (by decide) (by decide)
  exact ⟨h.1, h.2.1, h.2.2.2.1⟩

/-- C2: the podcast-list extractor emits exactly `ceil(itemCount / 10)`
pages, each fetched lazily by its page index (`get_page(n)` calls the API
for page `n + 1` when `n > 0`), and page 0 is served from the already
fetched first response, independently of the API function. -/
theorem podcast_known_total_pagination (callApi : Nat → PodcastApiPage)
    (data : PodcastApiPage) :
    podcastListEntries callApi data
        = ((List.range (podcastPageCount data.itemCount)).map
            (podcastGetPage callApi data)).flatten
      ∧ (data.itemCount = 0 → podcastPageCount data.itemCount = 0)
      ∧ (0 < data.itemCount →
          podcastPageSize * (podcastPageCount data.itemCount - 1) < data.itemCount
            ∧ data.itemCount ≤ podcastPageSize * podcastPageCount data.itemCount)
      ∧ podcastGetPage callApi data 0 = data.items.map parseEpisode
      ∧ (∀ n, 0 < n →
          podcastGetPage callApi data n = (callApi (n + 1)).items.map parseEpisode) := by
  refine ⟨rfl, ?_, ?_, ?_, ?_⟩
  · intro h
    simp [podcastPageCount, podcastPageSize, h]
  · intro h
    unfold podcastPageCount podcastPageSize
    omega
  · simp [podcastGetPage]
  · intro n hn
    have hne : n ≠ 0 := by omega
    simp [podcastGetPage, hne]

theorem podcast_known_total_pagination_witness :
    podcastListEntries wPodcastApi wPodcastData
        = ((List.range (podcastPageCount wPodcastData.itemCount)).map
            (podcastGetPage wPodcastApi wPodcastData)).flatten
      ∧ podcastPageSize * (podcastPageCount wPodcastData.itemCount - 1) < wPodcastData.itemCount
      ∧ podcastGetPage wPodcastApi wPodcastData 0 = wPodcastData.items.map parseEpisode
      ∧ podcastGetPage wPodcastApi wPodcastData 3 = (wPodcastApi 4).items.map parseEpisode := by
  have h := podcast_known_total_pagination wPodcastApi wPodcastData
  exact ⟨h.1, (h.2.2.1 (by decide)).1, h.2.2.2.1, h.2.2.2.2 3 (by decide)⟩

/-- C3: a URL matched by both the legacy-article pattern and the category
pattern is refused by `PolskieRadioCategoryIE.suitable`, so resolution
picks the legacy handler; a URL matching only the category pattern is
accepted. -/
theorem category_suitable_precedence :
    ∀ url : String,
      (legacyMatches url = true → categoryMatches url = true →
        categorySuitable url = false
          ∧ resolveLegacyOrCategory url = some HandlerId.legacy)
      ∧ (legacyMatches url = false → categoryMatches url = true →
        categorySuitable url = true
          ∧ resolveLegacyOrCategory url = some HandlerId.category) := by
  intro url
  constructor
  · intro h1 _
    simp [categorySuitable, resolveLegacyOrCategory, h1]
  · intro h1 h2
    simp [categorySuitable, resolveLegacyOrCategory, h1, h2]

theorem category_suitable_precedence_witness :
    (legacyMatches "https://www.polskieradio.pl/8/2382/Artykul/2534482" = true
      ∧ categoryMatches "https://www.polskieradio.pl/8/2382/Artykul/2534482" = true
      ∧ categorySuitable "https://www.polskieradio.pl/8/2382/Artykul/2534482" = false
      ∧ resolveLegacyOrCategory "https://www.polskieradio.pl/8/2382/Artykul/2534482"
          = some HandlerId.legacy)
    ∧ (legacyMatches "http://www.polskieradio.pl/7/129,Sygnaly-dnia?ref=source" = false
      ∧ categoryMatches "http://www.polskieradio.pl/7/129,Sygnaly-dnia?ref=source" = true
      ∧ categorySuitable "http://www.polskieradio.pl/7/129,Sygnaly-dnia?ref=source" = true) := by
  have h1 := (category_suitable_precedence
    "https://www.polskieradio.pl/8/2382/Artykul/2534482").1 (by decide) (by decide)
  have h2 := (category_suitable_precedence
    "http://www.polskieradio.pl/7/129,Sygnaly-dnia?ref=source").2 (by decide) (by decide)
  exact ⟨⟨by decide, by decide, h1.1, h1.2⟩, ⟨by decide, by decide, h2.1⟩⟩

/-- C4: the legacy and category handlers decide to redirect from the final
resolved URL of the fetched document (not from the input URL): when that
final URL suits `PolskieRadioIE` (resp. `PolskieRadioAuditionIE`), the
extract call returns a redirect to that handler, otherwise it completes
extraction itself. -/
theorem mid_extraction_redirect {α : Type u} (fetch : String → String × String)
    (restLegacy restCategory : String → α) (url : String) :
    (polskieRadioMatches (fetch url).2 = true →
      legacyRealExtract fetch restLegacy url
        = ExtractOutcome.redirect (fetch url).2 HandlerId.modern)
    ∧ (polskieRadioMatches (fetch url).2 = false →
      legacyRealExtract fetch restLegacy url
        = ExtractOutcome.completed (restLegacy (fetch url).1))
    ∧ (auditionMatches (fetch url).2 = true →
      categoryRealExtract fetch restCategory url
        = ExtractOutcome.redirect (fetch url).2 HandlerId.audition)
    ∧ (auditionMatches (fetch url).2 = false →
      categoryRealExtract fetch restCategory url
        = ExtractOutcome.completed (restCategory (fetch url).1)) := by
  refine ⟨?_, ?_, ?_, ?_⟩ <;> intro h <;>
    simp [legacyRealExtract, categoryRealExtract, h]

theorem mid_extraction_redirect_witness :
    polskieRadioMatches "https://www.polskieradio.pl/8/2382/Artykul/2534482" = false
    ∧ legacyRealExtract wFetchRedirect (fun _ => 0)
        "https://www.polskieradio.pl/8/2382/Artykul/2534482"
      = ExtractOutcome.redirect "https://jedynka.polskieradio.pl/artykul/2534482"
          HandlerId.modern
    ∧ categoryRealExtract wFetchAudition (fun _ => 0)
        "http://www.polskieradio.pl/7/129,Sygnaly-dnia?ref=source"
      = ExtractOutcome.redirect "https://jedynka.polskieradio.pl/audycje/5102"
          HandlerId.audition := by
  refine ⟨by decide, ?_, ?_⟩
  · exact (mid_extraction_redirect wFetchRedirect (fun _ => (0 : Nat)) (fun _ => (0 : Nat))
      "https://www.polskieradio.pl/8/2382/Artykul/2534482").1 (by decide)
  · exact (mid_extraction_redirect wFetchAudition (fun _ => (0 : Nat)) (fun _ => (0 : Nat))
      "http://www.polskieradio.pl/7/129,Sygnaly-dnia?ref=source").2.2.1 (by decide)

theorem mkEntry_url (base : Entry) (m : MediaJson) :
    (mkEntry base m).url = some (mediaUrlOf m) := by
  unfold mkEntry
  dsimp only
  split <;> rfl

theorem mkEntry_id (base : Entry) (m : MediaJson) :
    (mkEntry base m).id = some (toString m.id) := by
  unfold mkEntry
  dsimp only
  split <;> rfl

theorem mkEntry_timestamp (base : Entry) (m : MediaJson) :
    (mkEntry base m).timestamp = base.timestamp := by
  unfold mkEntry
  dsimp only
  split <;> rfl

theorem mkEntry_thumbnail (base : Entry) (m : MediaJson) :
    (mkEntry base m).thumbnail = base.thumbnail := by
  unfold mkEntry
  dsimp only
  split <;> rfl

/-- The entries of `_extract_webpage_player_entries` with stream URL `u`,
for an arbitrary starting `media_urls` set `seen`. -/
theorem extractLoop_filter (base : Entry) (u : String) :
    ∀ (doc : List MediaJson) (seen : List String),
      (extractLoop base seen doc).filter (fun e => decide (e.url = some u)) =
        if u ∈ seen then []
        else
          match doc.find? (fun m => mediaValid m && decide (mediaUrlOf m = u)) with
          | none => []
          | some m => [mkEntry base m] := by
  intro doc
  induction doc with
  | nil =>
    intro seen
    by_cases h : u ∈ seen <;> simp [extractLoop, h]
  | cons m rest ih =>
    intro seen
    by_cases hv : mediaValid m
    · by_cases hu : mediaUrlOf m = u
      · by_cases hs : u ∈ seen
        · have hms : mediaUrlOf m ∈ seen := by rw [hu]; exact hs
          simp only [extractLoop, hv, if_true, hms, ite_true]
          rw [ih seen]
          simp [hs]
        · have hms : mediaUrlOf m ∉ seen := by rw [hu]; exact hs
          simp only [extractLoop, hv, if_true]
          rw [if_neg hms, List.filter_cons, ih (mediaUrlOf m :: seen)]
          simp [mkEntry_url, hu, hs, List.find?_cons, hv]
      · by_cases hms : mediaUrlOf m ∈ seen
        · simp only [extractLoop, hv, if_true]
          rw [if_pos hms, ih seen]
          by_cases hs : u ∈ seen <;> simp [hs, List.find?_cons, hv, hu]
        · simp only [extractLoop, hv, if_true]
          rw [if_neg hms, List.filter_cons, ih (mediaUrlOf m :: seen)]
          have hne : ¬ ((mkEntry base m).url = some u) := by
            rw [mkEntry_url]
            intro h
            exact hu (Option.some.inj h)
          by_cases hs : u ∈ seen <;>
            simp [hne, hs, Ne.symm hu, List.find?_cons, hv, hu]
    · simp only [extractLoop]
      rw [if_neg (by simpa using hv), ih seen]
      by_cases hs : u ∈ seen <;> simp [hs, List.find?_cons, hv]

/-- C5: within one document, two `data-media` blocks with the same stream
URL (compared after proto-relative normalization) produce exactly one
entry — the one built from the first valid occurrence; a URL with no valid
occurrence produces no entry. -/
theorem webpage_player_dedup (doc : List MediaJson) (base : Entry) (u : String) :
    (extractWebpagePlayerEntries doc base).filter (fun e => decide (e.url = some u)) =
      match doc.find? (fun m => mediaValid m && decide (mediaUrlOf m = u)) with
      | none => []
      | some m => [mkEntry base m] := by
  have h := extractLoop_filter base u doc []
  simpa [extractWebpagePlayerEntries] using h

/-- A `data-media` block with a falsy `file` or `desc` is skipped without
touching the dedup set: removing it from the document leaves the yielded
entries unchanged. -/
theorem extractLoop_skip_invalid (base : Entry) (m : MediaJson)
    (hm : mediaValid m = false) :
    ∀ (pre post : List MediaJson) (seen : List String),
      extractLoop base seen (pre ++ m :: post) = extractLoop base seen (pre ++ post) := by
  intro pre
  induction pre with
  | nil =>
    intro post seen
    simp [extractLoop, hm]
  | cons q pre ih =>
    intro post seen
    simp only [List.cons_append, extractLoop]
    by_cases hq : mediaValid q
    · simp only [hq, if_true]
      by_cases hqs : mediaUrlOf q ∈ seen
      · simp [hqs, ih]
      · simp [hqs, ih]
    · simp [hq, ih]

/-- A non-Audio attachment (with its `fileType` present) is silently
skipped by the lines 175-181 comprehension. -/
theorem modernEntries_skip_nonaudio (title : String) (a : Attachment) (ft : String)
    (hft : a.fileType = some ft) (hna : ft ≠ "Audio") :
    ∀ (pre post : List Attachment),
      polskieRadioEntries title (pre ++ a :: post)
        = polskieRadioEntries title (pre ++ post) := by
  intro pre
  induction pre with
  | nil =>
    intro post
    simp [polskieRadioEntries, hft, hna]
  | cons b pre ih =>
    intro post
    simp only [List.cons_append, polskieRadioEntries]
    cases b.fileType with
    | none => rfl
    | some bt =>
      by_cases hbt : bt = "Audio"
      · simp only [hbt, if_true, List.append_eq]
        rw [ih]
      · simp [hbt, ih]

/-- An attachment whose `fileType` key is missing makes the comprehension
raise a `KeyError` instead of being dropped. -/
theorem modernEntries_missing_filetype (title : String) (a : Attachment)
    (ha : a.fileType = none) (rest : List Attachment) :
    polskieRadioEntries title (a :: rest) = Except.error "KeyError: fileType" := by
  simp [polskieRadioEntries, ha]

/-- C6 counterexample: the claim states that a field-missing attachment is
silently dropped by the modern-site article handler; on an attachment with
no `fileType` key the comprehension instead raises (`entry['fileType']`,
line 181). -/
theorem modern_field_missing_raises :
    polskieRadioEntries "title" [{ : Attachment }]
      = Except.error "KeyError: fileType" := rfl

/-- C6 (amended): a `data-media` block with a falsy `file` or `desc` is
silently dropped and extraction of the remaining blocks continues; in the
modern-site article handler an attachment whose `fileType` is present but
not `Audio` is silently dropped, while an attachment missing its
`fileType` raises an error rather than being dropped. -/
theorem silent_drop_policy :
    (∀ (base : Entry) (m : MediaJson), mediaValid m = false →
      ∀ (pre post : List MediaJson) (seen : List String),
        extractLoop base seen (pre ++ m :: post) = extractLoop base seen (pre ++ post))
    ∧ (∀ (title : String) (a : Attachment) (ft : String),
        a.fileType = some ft → ft ≠ "Audio" →
        ∀ (pre post : List Attachment),
          polskieRadioEntries title (pre ++ a :: post)
            = polskieRadioEntries title (pre ++ post))
    ∧ (∀ (title : String) (a : Attachment), a.fileType = none →
        ∀ rest : List Attachment,
          polskieRadioEntries title (a :: rest) = Except.error "KeyError: fileType") :=
  ⟨fun base m hm => extractLoop_skip_invalid base m hm,
    fun title a ft hft hna => modernEntries_skip_nonaudio title a ft hft hna,
    fun title a ha rest => modernEntries_missing_filetype title a ha rest⟩

theorem silent_drop_policy_witness :
    extractLoop { : Entry } [] ([wMedia] ++ wMediaBad :: [])
        = extractLoop { : Entry } [] ([wMedia] ++ [])
    ∧ polskieRadioEntries "t" ([wAttachment] ++ wAttachmentVideo :: [])
        = polskieRadioEntries "t" ([wAttachment] ++ [])
    ∧ polskieRadioEntries "t" ({ : Attachment } :: [wAttachment])
        = Except.error "KeyError: fileType" :=
  ⟨silent_drop_policy.1 { : Entry } wMediaBad (by decide) [wMedia] [] [],
    silent_drop_policy.2.1 "t" wAttachmentVideo "Video" rfl (by decide) [wAttachment] [],
    silent_drop_policy.2.2 "t" { : Attachment } rfl [wAttachment]⟩

/-- C7: a seed field survives into the final record exactly when the
entry-level resolution leaves it unset or empty, and a non-empty
entry-level value overwrites it — both for the spec-modelled
`url_transparent` overlay and for the webpage-player entry construction,
where the seed timestamp and thumbnail always survive (never touched by
the per-media update) and the seed title survives exactly when the
unquoted `desc` is empty. -/
theorem seed_field_overlay (seed resolved : Entry) (m : MediaJson) :
    ((resolved.title = none → (overlaySeed seed resolved).title = seed.title)
      ∧ (resolved.title = some "" → (overlaySeed seed resolved).title = seed.title)
      ∧ (∀ b, resolved.title = some b → b ≠ "" →
          (overlaySeed seed resolved).title = some b))
    ∧ ((mkEntry seed m).timestamp = seed.timestamp
      ∧ (mkEntry seed m).thumbnail = seed.thumbnail
      ∧ (unquote (m.desc.getD "") = "" → (mkEntry seed m).title = seed.title)
      ∧ (unquote (m.desc.getD "") ≠ "" →
          (mkEntry seed m).title = some (unquote (m.desc.getD "")))) := by
  refine ⟨⟨?_, ?_, ?_⟩, mkEntry_timestamp seed m, mkEntry_thumbnail seed m, ?_, ?_⟩
  · intro h
    simp [overlaySeed, overlayStrField, h]
  · intro h
    simp [overlaySeed, overlayStrField, h]
  · intro b h hb
    simp [overlaySeed, overlayStrField, h, hb]
  · intro h
    unfold mkEntry
    simp [h]
  · intro h
    unfold mkEntry
    simp [h]

theorem seed_field_overlay_witness :
    (overlaySeed wSeed wResolvedNoTitle).title = some "A"
    ∧ (overlaySeed wSeed wResolvedB).title = some "B"
    ∧ (mkEntry wSeed wMedia).timestamp = wSeed.timestamp
    ∧ (mkEntry wSeed wMedia).title = some (unquote (wMedia.desc.getD "")) := by
  have h1 := (seed_field_overlay wSeed wResolvedNoTitle wMedia).1.1 rfl
  have h2 := (seed_field_overlay wSeed wResolvedB wMedia).1.2.2 "B" rfl (by decide)
  have h3 := (seed_field_overlay wSeed wResolvedNoTitle wMedia).2.1
  have h4 := (seed_field_overlay wSeed wResolvedNoTitle wMedia).2.2.2.2 (by decide)
  exact ⟨h1.trans rfl, h2, h3, h4⟩

/-- C8: every concrete (non-`url_transparent`) entry yielded by the
webpage-player extraction, the audition entry generator and
`_parse_episode` carries both an id and a stream URL. -/
theorem concrete_record_invariant :
    (∀ (base : Entry) (seen : List String) (doc : List MediaJson) (e : Entry),
        e ∈ extractLoop base seen doc → e.id.isSome ∧ e.url.isSome)
    ∧ (∀ (fetchEpisodes : Nat → LP3Page Episode) (fetchArticles : Nat → LP3Page Article)
        (hasEpisodes hasArticles : Bool) (fuel : Nat) (e : Entry),
        e ∈ auditionEntries fetchEpisodes fetchArticles hasEpisodes hasArticles fuel →
        e.resultType ≠ some "url_transparent" → e.id.isSome ∧ e.url.isSome)
    ∧ (∀ d : PodcastEpisodeData,
        (parseEpisode d).id = d.guid
          ∧ (parseEpisode d).formats ≠ []
          ∧ ∀ f ∈ (parseEpisode d).formats, f.url = d.url) := by
  refine ⟨?_, ?_, ?_⟩
  · intro base seen doc
    induction doc generalizing seen with
    | nil =>
      intro e he
      simp [extractLoop] at he
    | cons m rest ih =>
      intro e he
      by_cases hv : mediaValid m
      · simp only [extractLoop, hv, if_true] at he
        by_cases hms : mediaUrlOf m ∈ seen
        · rw [if_pos hms] at he
          exact ih seen e he
        · rw [if_neg hms] at he
          rcases List.mem_cons.mp he with h | h
          · subst h
            exact ⟨by simp [mkEntry_id], by simp [mkEntry_url]⟩
          · exact ih _ e h
      · simp only [extractLoop] at he
        rw [if_neg (by simpa using hv)] at he
        exact ih seen e he
  · intro fetchEpisodes fetchArticles hasEpisodes hasArticles fuel e he hconc
    unfold auditionEntries at he
    rcases List.mem_append.mp he with h | h
    · cases hasEpisodes with
      | false => simp at h
      | true =>
        simp only [if_true] at h
        rcases List.mem_map.mp h with ⟨ep, _, rfl⟩
        exact ⟨rfl, rfl⟩
    · cases hasArticles with
      | false => simp at h
      | true =>
        simp only [if_true] at h
        rcases List.mem_map.mp h with ⟨a, _, rfl⟩
        exact absurd rfl hconc
  · intro d
    refine ⟨rfl, by simp [parseEpisode], ?_⟩
    intro f hf
    have h : f = { url := d.url, filesize := d.fileSize } := by
      simpa [parseEpisode] using hf
    rw [h]

theorem concrete_record_invariant_witness :
    ((mkEntry { : Entry } wMedia).id.isSome ∧ (mkEntry { : Entry } wMedia).url.isSome)
    ∧ ((episodeEntry wEpisode).id.isSome ∧ (episodeEntry wEpisode).url.isSome)
    ∧ (parseEpisode wPodcastEpisode).id = wPodcastEpisode.guid :=
  ⟨concrete_record_invariant.1 { : Entry } [] [wMedia] (mkEntry { : Entry } wMedia)
      (by decide),
    concrete_record_invariant.2.1 wFetchEpisodes wFetchArticles true true 2
      (episodeEntry wEpisode) (by decide) (by decide),
    (concrete_record_invariant.2.2 wPodcastEpisode).1⟩

/-- C9: the live-player handler raises `Channel not found` when no channel
in the fetched list has the requested `url`, raises `Station not found
even though we extracted channel` when no station's `Name` equals the
found channel's streamName-or-name, and otherwise returns the result dict
without raising. -/
theorem player_lookup_errors (channelList : List Channel) (stationList : List Station)
    (channelUrl : String) :
    ((∀ c ∈ channelList, c.url ≠ some channelUrl) →
      playerRealExtract channelList stationList channelUrl
        = Except.error "Channel not found")
    ∧ (∀ ch, channelList.find? (fun c => decide (c.url = some channelUrl)) = some ch →
        (∀ s ∈ stationList, s.sName ≠ channelStreamKey ch) →
        playerRealExtract channelList stationList channelUrl
          = Except.error "Station not found even though we extracted channel")
    ∧ (∀ ch st, channelList.find? (fun c => decide (c.url = some channelUrl)) = some ch →
        stationList.find? (fun s => decide (s.sName = channelStreamKey ch)) = some st →
        playerRealExtract channelList stationList channelUrl
          = Except.ok
              { id := toString ch.id
                formats := st.streams.map classifyStream
                title := if truthyOpt ch.name then ch.name else ch.streamName
                displayId := channelUrl
                thumbnail := "https://player.polskieradio.pl/images/" ++ channelUrl
                  ++ "-color-logo.png"
                isLive := true }) := by
  refine ⟨?_, ?_, ?_⟩
  · intro h
    have hn : channelList.find? (fun c => decide (c.url = some channelUrl)) = none :=
      List.find?_eq_none.mpr (fun c hc => by simpa using h c hc)
    unfold playerRealExtract
    rw [hn]
  · intro ch hch hs
    have hn : stationList.find? (fun s => decide (s.sName = channelStreamKey ch)) = none :=
      List.find?_eq_none.mpr (fun s hsm => by simpa using hs s hsm)
    unfold playerRealExtract
    rw [hch]
    dsimp only
    rw [hn]
  · intro ch st hch hst
    unfold playerRealExtract
    rw [hch]
    dsimp only
    rw [hst]

theorem player_lookup_errors_witness :
    playerRealExtract [] [wStation] "trojka" = Except.error "Channel not found"
    ∧ playerRealExtract [wChannel] [] "trojka"
        = Except.error "Station not found even though we extracted channel"
    ∧ playerRealExtract [wChannel] [wStation] "trojka"
        = Except.ok
            { id := toString wChannel.id
              formats := wStation.streams.map classifyStream
              title := if truthyOpt wChannel.name then wChannel.name else wChannel.streamName
              displayId := "trojka"
              thumbnail := "https://player.polskieradio.pl/images/" ++ "trojka"
                ++ "-color-logo.png"
              isLive := true } :=
  ⟨(player_lookup_errors [] [wStation] "trojka").1 (by simp),
    (player_lookup_errors [wChannel] [] "trojka").2.1 wChannel (by decide) (by simp),
    (player_lookup_errors [wChannel] [wStation] "trojka").2.2 wChannel wStation
      (by decide) (by decide)⟩

end PolskieRadio
